import Mathlib

/-!
Verification of the `justshoot` billiards physics engine (`src/jlib.rs` and
`src/geometry.rs`) against its natural-language specification.

Modelling conventions:
* `f64` values are modelled as exact rationals (`ℚ`); all arithmetic the
  source performs with `+ - * /` is embedded exactly.
* The external math library (nalgebra / libm) primitives that are not exact
  rational operations — `f64::sqrt` (used by `Vector3::norm`),
  `UnitQuaternion::from_axis_angle`, `try_slerp`, `nlerp` — are abstracted as
  fields of a `MathModel` parameter; theorems that depend on a property of one
  of them (for example that a zero-angle axis rotation is the identity
  quaternion) take that property as an explicit hypothesis.
* `JUnitVector3` (`nalgebra::Unit<Vector3<f64>>`) is modelled as a plain
  vector; `new_normalize` is division by the model square root of the squared
  norm, and `unwrap` is the identity.
* Rust `panic!` (and out-of-bounds indexing) is modelled by `Option`, with
  `none` standing for an aborted call.
-/

namespace JustShoot

/-- Vector of three `f64` components (`geometry.rs`: `JVector3`), with the
components modelled as exact rationals. -/
structure JVector3 where
  x : ℚ
  y : ℚ
  z : ℚ
deriving DecidableEq

namespace JVector3

def add (v w : JVector3) : JVector3 := ⟨v.x + w.x, v.y + w.y, v.z + w.z⟩

def sub (v w : JVector3) : JVector3 := ⟨v.x - w.x, v.y - w.y, v.z - w.z⟩

def smul (c : ℚ) (v : JVector3) : JVector3 := ⟨c * v.x, c * v.y, c * v.z⟩

instance : Add JVector3 := ⟨add⟩

instance : Sub JVector3 := ⟨sub⟩

instance : SMul ℚ JVector3 := ⟨smul⟩

/-- Dot product of two vectors (`nalgebra`'s `dot`). -/
def dot (v w : JVector3) : ℚ := v.x * w.x + v.y * w.y + v.z * w.z

/-- Squared Euclidean norm; `norm()` in the source is its square root. -/
def normSq (v : JVector3) : ℚ := v.dot v

/-- The zero vector (`JVector3::zeros()`). -/
def zeros : JVector3 := ⟨0, 0, 0⟩

instance : Inhabited JVector3 := ⟨zeros⟩

@[simp] theorem add_def (v w : JVector3) :
    v + w = ⟨v.x + w.x, v.y + w.y, v.z + w.z⟩ := rfl

@[simp] theorem sub_def (v w : JVector3) :
    v - w = ⟨v.x - w.x, v.y - w.y, v.z - w.z⟩ := rfl

@[simp] theorem smul_def (c : ℚ) (v : JVector3) :
    c • v = ⟨c * v.x, c * v.y, c * v.z⟩ := rfl

end JVector3

/-- Quaternion with four `f64` components (`nalgebra`'s `Quaternion<f64>`;
`JUnitQuaternion` values are quaternions kept at unit norm by the library).
Components are modelled as exact rationals. -/
structure Quat where
  w : ℚ
  x : ℚ
  y : ℚ
  z : ℚ
deriving DecidableEq

namespace Quat

/-- Hamilton product, as computed componentwise by the library. -/
def mul (a b : Quat) : Quat :=
  ⟨a.w * b.w - a.x * b.x - a.y * b.y - a.z * b.z,
   a.w * b.x + a.x * b.w + a.y * b.z - a.z * b.y,
   a.w * b.y - a.x * b.z + a.y * b.w + a.z * b.x,
   a.w * b.z + a.x * b.y - a.y * b.x + a.z * b.w⟩

/-- Quaternion conjugate. -/
def conj (a : Quat) : Quat := ⟨a.w, -a.x, -a.y, -a.z⟩

/-- The identity quaternion (`JUnitQuaternion::identity()`). -/
def id : Quat := ⟨1, 0, 0, 0⟩

instance : Inhabited Quat := ⟨id⟩

end Quat

/-- Abstract model of the external math-library primitives used by the source
that are not exact rational arithmetic. Each theorem states the properties of
these primitives it relies on as hypotheses. -/
structure MathModel where
  /-- Model of `f64::sqrt`, used by `Vector3::norm`. -/
  sqrt : ℚ → ℚ
  /-- Model of `UnitQuaternion::from_axis_angle(axis, angle)`. -/
  fromAxisAngle : JVector3 → ℚ → Quat
  /-- Model of `UnitQuaternion::try_slerp(other, w, epsilon)`; `none` models
  the library returning `None` when the rotations are (nearly) antipodal. -/
  trySlerp : Quat → Quat → ℚ → ℚ → Option Quat
  /-- Model of `UnitQuaternion::nlerp(other, w)`. -/
  nlerp : Quat → Quat → ℚ → Quat

namespace MathModel

/-- Euclidean norm of a vector (`nalgebra`'s `norm()`): the library square
root of the squared norm. -/
def norm (M : MathModel) (v : JVector3) : ℚ := M.sqrt v.normSq

/-- Model of `Unit::new_normalize`: scale by the reciprocal of the norm. -/
def normalize (M : MathModel) (v : JVector3) : JVector3 :=
  (1 / M.norm v) • v

end MathModel

/-- Modelled from the spec: `rotate_point` is used by `adjust_ball_for_spin`
in `jlib.rs` but is absent from the provided `geometry.rs`. Per the spec
(section 4.2) it rotates a point about the origin by a unit quaternion, which
is the standard conjugation `q · p · q̄` applied to the point embedded as a
pure quaternion. -/
def rotate_point (p : JVector3) (q : Quat) : JVector3 :=
  let r := (q.mul ⟨0, p.x, p.y, p.z⟩).mul q.conj
  ⟨r.x, r.y, r.z⟩

/-- Computes the norm of the approach velocity of two points
(`geometry.rs`: `calc_norm_apprch_v`). -/
def calc_norm_apprch_v (M : MathModel) (p1 p2 u1 u2 : JVector3) : ℚ :=
  let r := p2 - p1
  ((u1 - u2).dot r) / M.norm r

/-- Linear interpolation between two vectors (`geometry.rs`:
`calc_interpolated_vector`). -/
def calc_interpolated_vector (v1 v2 : JVector3) (t1 t2 t : ℚ) : JVector3 :=
  let w := (t - t1) / (t2 - t1)
  (1 - w) • v1 + w • v2

/-- Spherical interpolation with normalized-linear fallback (`geometry.rs`:
`calc_interpolated_quaternion`). -/
def calc_interpolated_quaternion (M : MathModel) (q1 q2 : Quat)
    (t1 t2 t : ℚ) : Quat :=
  let w := (t - t1) / (t2 - t1)
  match M.trySlerp q1 q2 w 0 with
  | some slerped => slerped
  | none => M.nlerp q1 q2 w

/-- Per-ball kinematic state (`jlib.rs`: `Ball`). `urot_axis` is a
`JUnitVector3` in the source, modelled as a plain vector. -/
structure Ball where
  pos : JVector3
  u : JVector3
  rot : Quat
  urot_axis : JVector3
  urot_angle : ℚ
deriving DecidableEq

instance : Inhabited Ball :=
  ⟨⟨JVector3.zeros, JVector3.zeros, Quat.id, ⟨1, 0, 0⟩, 0⟩⟩

/-- Integration of one ball over one timestep (`jlib.rs`:
`Ball::apply_velocities`). -/
def Ball.apply_velocities (M : MathModel) (ball : Ball) (ts : ℚ) : Ball :=
  let angle := ball.urot_angle * ts
  let urot := M.fromAxisAngle ball.urot_axis angle
  { ball with pos := ball.pos + ts • ball.u, rot := urot.mul ball.rot }

/-- Immutable per-run world parameters (`jlib.rs`: `WorldConf`). -/
structure WorldConf where
  ball_radius : ℚ
  ball_weight : ℚ
  ball_ball_rest : ℚ
  ball_cloth_rest : ℚ
  ball_spot_poss : List JVector3
  ball_spot_radius_factor : ℚ
  gravity : ℚ
deriving DecidableEq

/-- Debug configuration (`jlib.rs`: `DebugConf`); printing has no effect on
the simulation state. -/
structure DebugConf where
  should_print_collisions : Bool
deriving DecidableEq

/-- Timestamped snapshot of every ball (`jlib.rs`: `SimulationState`). -/
structure SimulationState where
  t : ℚ
  balls : List Ball
deriving DecidableEq

instance : Inhabited SimulationState := ⟨⟨0, []⟩⟩

/-- The simulation driver (`jlib.rs`: `Simulator`). -/
structure Simulator where
  balls : List Ball
  world_conf : WorldConf
  debug_conf : DebugConf
  ts : ℚ
  t : ℚ
  t_hard_limit : ℚ
deriving DecidableEq

/-- Snapshot of a simulator (`jlib.rs`: `SimulationState::from_simulator`). -/
def SimulationState.from_simulator (sim : Simulator) : SimulationState :=
  ⟨sim.t, sim.balls⟩

/-- Construction of a simulator (`jlib.rs`: `Simulator::new`): clock starts
at zero, hard limit is 30 time units. -/
def Simulator.new (balls : List Ball) (world_conf : WorldConf) (ts : ℚ) :
    Simulator :=
  ⟨balls, world_conf, ⟨false⟩, ts, 0, 30⟩

/-- Detected ball-ball collision (`jlib.rs`: `BallBallCollisionEvent`). -/
structure BallBallCollisionEvent where
  i : ℕ
  j : ℕ
  unit_normal : JVector3
deriving DecidableEq

/-- Detected ball-cloth collision (`jlib.rs`: `BallClothCollisionEvent`). -/
structure BallClothCollisionEvent where
  i : ℕ
  unit_normal : JVector3
deriving DecidableEq

/-- Gravity pass (`jlib.rs`: `Simulator::apply_gravity`). The source loop
mutates each ball independently, which is a map over the ball list. -/
def Simulator.apply_gravity (sim : Simulator) : Simulator :=
  { sim with balls := sim.balls.map (fun ball =>
      if ball.pos.z > sim.world_conf.ball_radius then
        { ball with u := { ball.u with z :=
            ball.u.z + sim.world_conf.gravity * sim.ts } }
      else ball) }

/-- Integration pass (`jlib.rs`: `Simulator::apply_ball_velocities`). -/
def Simulator.apply_ball_velocities (M : MathModel) (sim : Simulator) :
    Simulator :=
  { sim with balls := sim.balls.map (fun ball => ball.apply_velocities M sim.ts) }

/-- Anti-jitter pass (`jlib.rs`: `Simulator::check_snap_to_cloth`): a resting
ball with a small positive vertical velocity, at most `-gravity * ts`, is
clamped to the cloth. The `println!` in the source has no state effect. -/
def Simulator.check_snap_to_cloth (sim : Simulator) : Simulator :=
  let snap_threshold := -sim.world_conf.gravity * sim.ts
  { sim with balls := sim.balls.map (fun ball =>
      if ball.pos.z ≤ sim.world_conf.ball_radius ∧ ball.u.z > 0 ∧
          ball.u.z ≤ snap_threshold then
        { ball with pos := { ball.pos with z := sim.world_conf.ball_radius },
                    u := { ball.u with z := 0 } }
      else ball) }

/-- Velocity adjustment for one ball-ball collision event (`jlib.rs`:
`Simulator::adjust_for_ball_to_ball_collisions`). Both normal components are
read before either ball is written, exactly as in the source's first block;
the second write re-reads its ball after the first write, as the source's
second mutable borrow does. The source indexes `self.balls`; the events the
pass produces are always in bounds, so `getD` is faithful there. -/
def adjust_for_ball_to_ball_collisions (conf : WorldConf) (balls : List Ball)
    (coll_ev : BallBallCollisionEvent) : List Ball :=
  let ball_a := balls.getD coll_ev.i default
  let ball_b := balls.getD coll_ev.j default
  let comp_a := (ball_a.u.dot coll_ev.unit_normal) • coll_ev.unit_normal
  let comp_b := (ball_b.u.dot coll_ev.unit_normal) • coll_ev.unit_normal
  let balls1 := balls.set coll_ev.i
    { ball_a with u := ball_a.u - comp_a + conf.ball_ball_rest • comp_b }
  let ball_b1 := balls1.getD coll_ev.j default
  balls1.set coll_ev.j
    { ball_b1 with u := ball_b1.u - comp_b + conf.ball_ball_rest • comp_a }

/-- Detection for one ordered pair `(i, j)` against the current ball list:
the body of the inner loop of `jlib.rs`: `Simulator::check_ball_to_ball_collisions`
that fills `coll_ev_maybe`. -/
def check_ball_pair (M : MathModel) (conf : WorldConf) (balls : List Ball)
    (i j : ℕ) : Option BallBallCollisionEvent :=
  let ball_a := balls.getD i default
  let ball_b := balls.getD j default
  let norm_apprch_v := calc_norm_apprch_v M ball_a.pos ball_b.pos ball_a.u ball_b.u
  let r := ball_b.pos - ball_a.pos
  let r_norm := M.norm r
  if r_norm > 0 then
    if norm_apprch_v > 0 then
      if r_norm ≤ 2 * conf.ball_radius then
        some ⟨i, j, (1 / r_norm) • r⟩
      else none
    else none
  else none

/-- The ordered list of index pairs `(i, j)` visited by the double loop
`for i in 0..n-1 { for j in i+1..n { ... } }`. For `n = 0` the source's
`n - 1` underflows `usize` (a panic in debug builds); the claims restrict to
simulators with at least one ball, where truncated subtraction agrees. -/
def ball_pairs (n : ℕ) : List (ℕ × ℕ) :=
  (List.range (n - 1)).flatMap fun i =>
    (List.range' (i + 1) (n - (i + 1))).map fun j => (i, j)

/-- Ball-ball collision pass (`jlib.rs`:
`Simulator::check_ball_to_ball_collisions`): pairs are visited in
lexicographic order; each pair is detected against the current ball list and,
when it collides, adjusted immediately, before the next pair is visited. -/
def Simulator.check_ball_to_ball_collisions (M : MathModel) (sim : Simulator) :
    Simulator :=
  { sim with balls :=
      (ball_pairs sim.balls.length).foldl (fun balls p =>
        match check_ball_pair M sim.world_conf balls p.1 p.2 with
        | some coll_ev =>
            adjust_for_ball_to_ball_collisions sim.world_conf balls coll_ev
        | none => balls) sim.balls }

/-- Velocity adjustment for one ball-cloth collision event (`jlib.rs`:
`Simulator::adjust_for_ball_to_cloth_collisions`), acting on the single
affected ball. -/
def adjust_for_ball_to_cloth_collisions (conf : WorldConf) (ball : Ball)
    (unit_normal : JVector3) : Ball :=
  let comp := (ball.u.dot unit_normal) • unit_normal
  { ball with u := ball.u - comp - conf.ball_cloth_rest • comp }

/-- Spin-to-translation coupling (`jlib.rs`: `Simulator::adjust_ball_for_spin`),
acting on the single affected ball. The literal `0.0001` is modelled as the
exact rational `1 / 10000`. -/
def adjust_ball_for_spin (M : MathModel) (conf : WorldConf) (ball : Ball)
    (unit_normal : JVector3) : Ball :=
  let a_dot_n := ball.urot_axis.dot unit_normal
  if a_dot_n > 0 then
    let k := conf.ball_radius / a_dot_n
    let x := k • ball.urot_axis
    let rotated_center := rotate_point (ball.pos - x)
      (M.fromAxisAngle
        (M.normalize ⟨unit_normal.x, unit_normal.y, unit_normal.z⟩)
        (ball.urot_angle * a_dot_n * (1 / 10000))) + x
    { ball with pos := rotated_center }
  else ball

/-- Ball-cloth collision pass (`jlib.rs`:
`Simulator::check_ball_to_cloth_collisions`). Each iteration of the source
loop reads and writes only ball `i`, so the pass is a map over the ball list;
a colliding ball gets the cloth velocity adjustment followed by the spin
position adjustment, both with unit normal `(0, 0, 1)`. -/
def Simulator.check_ball_to_cloth_collisions (M : MathModel)
    (sim : Simulator) : Simulator :=
  { sim with balls := sim.balls.map (fun ball =>
      if ball.u.z ≤ 0 ∧ ball.pos.z ≤ sim.world_conf.ball_radius then
        adjust_ball_for_spin M sim.world_conf
          (adjust_for_ball_to_cloth_collisions sim.world_conf ball ⟨0, 0, 1⟩)
          ⟨0, 0, 1⟩
      else ball) }

/-- One driver step (`jlib.rs`: `Simulator::progress`): ball-ball pass,
ball-cloth pass, snap-to-cloth, gravity, integration, clock advance; returns
the updated simulator together with the snapshot the source returns. -/
def Simulator.progress (M : MathModel) (sim : Simulator) :
    Simulator × SimulationState :=
  let sim1 := sim.check_ball_to_ball_collisions M
  let sim2 := sim1.check_ball_to_cloth_collisions M
  let sim3 := sim2.check_snap_to_cloth
  let sim4 := sim3.apply_gravity
  let sim5 := sim4.apply_ball_velocities M
  let sim6 := { sim5 with t := sim5.t + sim5.ts }
  (sim6, SimulationState.from_simulator sim6)

/-- The simulator state after one `progress()` call, discarding the returned
snapshot as `run_complete_simulation` does. -/
def Simulator.progressSim (M : MathModel) (sim : Simulator) : Simulator :=
  (sim.progress M).1

/-- Iterated `progress()` calls: `progressIterate M n sim` is the simulator
after `n` steps from `sim`. -/
def progressIterate (M : MathModel) : ℕ → Simulator → Simulator
  | 0, sim => sim
  | n + 1, sim => progressIterate M n (sim.progressSim M)

@[simp] theorem progressSim_ts (M : MathModel) (sim : Simulator) :
    (sim.progressSim M).ts = sim.ts := rfl

@[simp] theorem progressSim_t_hard_limit (M : MathModel) (sim : Simulator) :
    (sim.progressSim M).t_hard_limit = sim.t_hard_limit := rfl

@[simp] theorem progressSim_world_conf (M : MathModel) (sim : Simulator) :
    (sim.progressSim M).world_conf = sim.world_conf := rfl

@[simp] theorem progressSim_t (M : MathModel) (sim : Simulator) :
    (sim.progressSim M).t = sim.t + sim.ts := rfl

/-- Offline batch run (`jlib.rs`: `Simulator::run_complete_simulation`):
step repeatedly; as soon as the clock is at or past the hard limit, stop
without recording; otherwise record the snapshot and continue. The source
loop does not terminate for a non-positive timestep, so the embedding
requires `0 < ts`; termination is by the number of whole timesteps left
before the hard limit. -/
def Simulator.run_complete_simulation (M : MathModel) (sim : Simulator)
    (h : 0 < sim.ts) : List SimulationState × Simulator :=
  let sim1 := sim.progressSim M
  if sim1.t_hard_limit ≤ sim1.t then ([], sim1)
  else
    let rest := run_complete_simulation M sim1 h
    (⟨sim1.t, sim1.balls⟩ :: rest.1, rest.2)
termination_by (⌈(sim.t_hard_limit - sim.t) / sim.ts⌉).toNat
decreasing_by
  simp only [progressSim_t, progressSim_ts, progressSim_t_hard_limit] at *
  have hts : (0 : ℚ) < sim.ts := h
  have hlt : sim.t + sim.ts < sim.t_hard_limit := by
    exact lt_of_not_le (by assumption)
  have hdiv : (sim.t_hard_limit - (sim.t + sim.ts)) / sim.ts =
      (sim.t_hard_limit - sim.t) / sim.ts - 1 := by
    field_simp
    ring
  have hone : (1 : ℚ) < (sim.t_hard_limit - sim.t) / sim.ts := by
    rw [lt_div_iff₀ hts]
    linarith
  have hceil : 0 < ⌈(sim.t_hard_limit - sim.t) / sim.ts⌉ := by
    have := Int.le_ceil ((sim.t_hard_limit - sim.t) / sim.ts)
    have h1 : (1 : ℚ) < (⌈(sim.t_hard_limit - sim.t) / sim.ts⌉ : ℚ) :=
      lt_of_lt_of_le hone this
    exact_mod_cast lt_trans zero_lt_one h1
  rw [hdiv, Int.ceil_sub_one]
  omega

/-- Ordered sequence of snapshots (`jlib.rs`: `SimulationStateSeq`). -/
structure SimulationStateSeq where
  states : List SimulationState

/-- Interpolated ball list: the inner loop of `calc_interpolated_at` over
`0 .. state1.balls.len()`, pairing `state1.balls[i]` with `state2.balls[i]`.
Indexing `state2.balls` out of bounds is a Rust panic, modelled as `none`;
balls of `state2` beyond `state1`'s length are never read. -/
def interpolate_balls (M : MathModel) (bs1 bs2 : List Ball) (t1 t2 t : ℚ) :
    Option (List Ball) :=
  match bs1, bs2 with
  | [], _ => some []
  | _ :: _, [] => none
  | b1 :: r1, b2 :: r2 =>
    match interpolate_balls M r1 r2 t1 t2 t with
    | some rest => some
        ({ pos := calc_interpolated_vector b1.pos b2.pos t1 t2 t,
           rot := calc_interpolated_quaternion M b1.rot b2.rot t1 t2 t,
           u := JVector3.zeros,
           urot_axis := M.normalize ⟨1, 0, 0⟩,
           urot_angle := 0 } :: rest)
    | none => none

/-- Bracket search of `calc_interpolated_at`: the loop
`for i in 0..sl-1` over adjacent snapshot pairs, returning the interpolation
at the first pair with `state1.t <= t <= state2.t`; falling off the end of
the loop is the source's final `panic!`, modelled as `none`. -/
def bracket_loop (M : MathModel) (t : ℚ) :
    List (SimulationState × SimulationState) → Option SimulationState
  | [] => none
  | (state1, state2) :: rest =>
    if state1.t ≤ t ∧ state2.t ≥ t then
      match interpolate_balls M state1.balls state2.balls state1.t state2.t t with
      | some balls => some ⟨t, balls⟩
      | none => none
    else bracket_loop M t rest

/-- Interpolated state at an arbitrary time (`jlib.rs`:
`SimulationStateSeq::calc_interpolated_at`). `none` models the two `panic!`
calls and out-of-bounds indexing; otherwise the source's three branches:
clamp to the first snapshot, clamp to the last, or bracket search. -/
def SimulationStateSeq.calc_interpolated_at (M : MathModel)
    (seq : SimulationStateSeq) (t : ℚ) : Option SimulationState :=
  let sl := seq.states.length
  if sl = 0 then none
  else if t ≤ (seq.states.getD 0 default).t then
    some ⟨t, (seq.states.getD 0 default).balls⟩
  else if t ≥ (seq.states.getD (sl - 1) default).t then
    some ⟨t, (seq.states.getD (sl - 1) default).balls⟩
  else
    bracket_loop M t (seq.states.zip seq.states.tail)

/-- Refinement comparison definition for the ball-ball pass, following the
spec's words rather than the source: detect every colliding pair on the
pre-pass state, collect the events, then apply each event's exchange with the
normal velocity components computed from the PRE-PASS velocities. -/
def adjust_for_ball_to_ball_collisions_prepass (conf : WorldConf)
    (pre : List Ball) (balls : List Ball) (coll_ev : BallBallCollisionEvent) :
    List Ball :=
  let ball_a0 := pre.getD coll_ev.i default
  let ball_b0 := pre.getD coll_ev.j default
  let comp_a := (ball_a0.u.dot coll_ev.unit_normal) • coll_ev.unit_normal
  let comp_b := (ball_b0.u.dot coll_ev.unit_normal) • coll_ev.unit_normal
  let ball_a := balls.getD coll_ev.i default
  let balls1 := balls.set coll_ev.i
    { ball_a with u := ball_a.u - comp_a + conf.ball_ball_rest • comp_b }
  let ball_b := balls1.getD coll_ev.j default
  balls1.set coll_ev.j
    { ball_b with u := ball_b.u - comp_b + conf.ball_ball_rest • comp_a }

/-- Refinement comparison definition, following the spec's words (sections
4.2 and 9): the ball-ball pass with all detection and all exchanged
components read from the pre-pass state. -/
def Simulator.check_ball_to_ball_collisions_prepass (M : MathModel)
    (sim : Simulator) : Simulator :=
  let events := (ball_pairs sim.balls.length).filterMap
    (fun p => check_ball_pair M sim.world_conf sim.balls p.1 p.2)
  { sim with balls := events.foldl (fun balls coll_ev =>
      adjust_for_ball_to_ball_collisions_prepass sim.world_conf sim.balls
        balls coll_ev) sim.balls }

section Helpers

/-- Indexing a mapped list below its length commutes with the map. -/
theorem getD_map_of_lt {α β : Type} (f : α → β) (l : List α) (i : ℕ)
    (dα : α) (dβ : β) (h : i < l.length) :
    (l.map f).getD i dβ = f (l.getD i dα) := by
  induction l generalizing i with
  | nil => simp at h
  | cons a l ih =>
    cases i with
    | zero => simp
    | succ n =>
      simp only [List.map_cons, List.getD_cons_succ]
      exact ih n (by simpa using Nat.lt_of_succ_lt_succ h)

/-- Mapping preserves length, stated for `getD` bookkeeping. -/
theorem length_map_balls (f : Ball → Ball) (l : List Ball) :
    (l.map f).length = l.length := List.length_map l f

/-- The pairs visited by the double collision loop for two balls. -/
theorem ball_pairs_two : ball_pairs 2 = [(0, 1)] := rfl

/-- The pairs visited by the double collision loop for three balls. -/
theorem ball_pairs_three : ball_pairs 3 = [(0, 1), (0, 2), (1, 2)] := rfl

/-- A concrete math model used to instantiate witnesses: its square root is
exact on the perfect squares the witnesses need, its axis-angle rotations are
the identity quaternion, and spherical interpolation always falls back to the
normalized-linear branch. -/
def Mw : MathModel :=
  ⟨fun q => if q = 4 then 2 else if q = 16 then 4 else if q = 1 then 1 else 0,
   fun _ _ => Quat.id,
   fun _ _ _ _ => none,
   fun q1 _ _ => q1⟩

end Helpers

section ClaimC4

/-- Claim C4: every call to `progress` runs the ball-ball pass, the
ball-cloth pass, the snap-to-cloth pass, the gravity pass and the
integration pass in that fixed order, advances the clock by exactly `ts`,
and returns the snapshot of the resulting state; for a simulator with at
least one ball it is total (no failure path). -/
theorem C4_progress_pipeline (M : MathModel) (sim : Simulator)
    (h : sim.balls ≠ []) :
    (sim.progress M).1 =
      { (((sim.check_ball_to_ball_collisions M).check_ball_to_cloth_collisions
            M).check_snap_to_cloth.apply_gravity.apply_ball_velocities M) with
        t := sim.t + sim.ts } ∧
    (sim.progress M).1.t = sim.t + sim.ts ∧
    (sim.progress M).2 = SimulationState.from_simulator (sim.progress M).1 :=
  ⟨rfl, rfl, rfl⟩

/-- Concrete one-ball simulator for the witnesses. -/
def simW : Simulator :=
  Simulator.new
    [{ pos := ⟨0, 0, 2⟩, u := ⟨0, 0, 0⟩, rot := Quat.id,
       urot_axis := ⟨1, 0, 0⟩, urot_angle := 0 }]
    { ball_radius := 1, ball_weight := 1, ball_ball_rest := 1,
      ball_cloth_rest := 1 / 2, ball_spot_poss := [],
      ball_spot_radius_factor := 1 / 10, gravity := -10 }
    (1 / 10)

/-- Witness for C4 at the concrete one-ball simulator. -/
theorem C4_progress_pipeline_witness :
    (simW.progress Mw).1.t = simW.t + simW.ts :=
  (C4_progress_pipeline Mw simW (by decide)).2.1

end ClaimC4

section ClaimC6

/-- Claim C6: the gravity pass adds `gravity * ts` to the vertical velocity
of exactly the balls with `pos.z > ball_radius`; every ball at or below
`ball_radius` is left completely unchanged, and for an airborne ball no
field other than the vertical velocity component is modified. -/
theorem C6_apply_gravity (sim : Simulator) (i : ℕ)
    (h : i < sim.balls.length) :
    sim.apply_gravity.balls.length = sim.balls.length ∧
    ((sim.balls.getD i default).pos.z ≤ sim.world_conf.ball_radius →
      sim.apply_gravity.balls.getD i default = sim.balls.getD i default) ∧
    (sim.world_conf.ball_radius < (sim.balls.getD i default).pos.z →
      sim.apply_gravity.balls.getD i default =
        { sim.balls.getD i default with
          u := { (sim.balls.getD i default).u with
                 z := (sim.balls.getD i default).u.z +
                   sim.world_conf.gravity * sim.ts } }) := by
  refine ⟨List.length_map _ _, ?_, ?_⟩
  · intro hle
    rw [show sim.apply_gravity.balls = sim.balls.map _ from rfl,
      getD_map_of_lt _ _ _ default _ h]
    rw [if_neg (not_lt.mpr hle)]
  · intro hgt
    rw [show sim.apply_gravity.balls = sim.balls.map _ from rfl,
      getD_map_of_lt _ _ _ default _ h]
    rw [if_pos hgt]

/-- Witness for C6: the concrete airborne ball gains `gravity * ts` of
vertical velocity and nothing else changes. -/
theorem C6_apply_gravity_witness :
    simW.apply_gravity.balls.getD 0 default =
      { simW.balls.getD 0 default with
        u := { (simW.balls.getD 0 default).u with
               z := (simW.balls.getD 0 default).u.z +
                 simW.world_conf.gravity * simW.ts } } :=
  (C6_apply_gravity simW 0 (by decide)).2.2 (by decide)

end ClaimC6

section ClaimC5

/-- Claim C5: the ball-cloth pass treats ball `i` as colliding exactly when
`u.z ≤ 0` and `pos.z ≤ ball_radius` (both boundaries inclusive); a colliding
ball's vertical velocity becomes `-ball_cloth_rest` times its previous value
with the horizontal components unchanged, and a non-colliding ball's
velocity is unchanged. -/
theorem C5_cloth_pass (M : MathModel) (sim : Simulator) (i : ℕ)
    (h : i < sim.balls.length) :
    (sim.check_ball_to_cloth_collisions M).balls.length = sim.balls.length ∧
    ((sim.check_ball_to_cloth_collisions M).balls.getD i default).u =
      (if (sim.balls.getD i default).u.z ≤ 0 ∧
          (sim.balls.getD i default).pos.z ≤ sim.world_conf.ball_radius then
        ⟨(sim.balls.getD i default).u.x, (sim.balls.getD i default).u.y,
         -(sim.world_conf.ball_cloth_rest * (sim.balls.getD i default).u.z)⟩
      else (sim.balls.getD i default).u) := by
  refine ⟨List.length_map _ _, ?_⟩
  rw [show (sim.check_ball_to_cloth_collisions M).balls = sim.balls.map _ from
    rfl, getD_map_of_lt _ _ _ default _ h]
  by_cases hc : (sim.balls.getD i default).u.z ≤ 0 ∧
      (sim.balls.getD i default).pos.z ≤ sim.world_conf.ball_radius
  · rw [if_pos hc, if_pos hc]
    set b := sim.balls.getD i default
    have hadj : (adjust_for_ball_to_cloth_collisions sim.world_conf b
        ⟨0, 0, 1⟩).u =
        ⟨b.u.x, b.u.y, -(sim.world_conf.ball_cloth_rest * b.u.z)⟩ := by
      show b.u - _ - _ = _
      simp only [JVector3.dot, JVector3.smul_def, JVector3.sub_def,
        JVector3.mk.injEq]
      refine ⟨by ring, by ring, by ring⟩
    rw [show (adjust_ball_for_spin M sim.world_conf
        (adjust_for_ball_to_cloth_collisions sim.world_conf b ⟨0, 0, 1⟩)
        ⟨0, 0, 1⟩).u =
        (adjust_for_ball_to_cloth_collisions sim.world_conf b ⟨0, 0, 1⟩).u
      from ?_, hadj]
    unfold adjust_ball_for_spin
    by_cases hs : (adjust_for_ball_to_cloth_collisions sim.world_conf b
        ⟨0, 0, 1⟩).urot_axis.dot ⟨0, 0, 1⟩ > 0
    · rw [if_pos hs]
    · rw [if_neg hs]
  · rw [if_neg hc, if_neg hc]

/-- Witness for C5: a concrete resting ball with downward velocity has its
vertical velocity flipped and scaled by the restitution, and horizontal
velocity kept. -/
def simW5 : Simulator :=
  Simulator.new
    [{ pos := ⟨0, 0, 1⟩, u := ⟨3, 4, -2⟩, rot := Quat.id,
       urot_axis := ⟨1, 0, 0⟩, urot_angle := 0 }]
    { ball_radius := 1, ball_weight := 1, ball_ball_rest := 1,
      ball_cloth_rest := 1 / 2, ball_spot_poss := [],
      ball_spot_radius_factor := 1 / 10, gravity := -10 }
    (1 / 10)

theorem C5_cloth_pass_witness :
    ((simW5.check_ball_to_cloth_collisions Mw).balls.getD 0 default).u =
      (if (simW5.balls.getD 0 default).u.z ≤ 0 ∧
          (simW5.balls.getD 0 default).pos.z ≤ simW5.world_conf.ball_radius
       then
        ⟨(simW5.balls.getD 0 default).u.x, (simW5.balls.getD 0 default).u.y,
         -(simW5.world_conf.ball_cloth_rest *
           (simW5.balls.getD 0 default).u.z)⟩
      else (simW5.balls.getD 0 default).u) :=
  (C5_cloth_pass Mw simW5 0 (by decide)).2

end ClaimC5

section ClaimC2

/-- Unfolding equation for the ball-ball pass, for rewriting. -/
theorem check_ball_to_ball_balls (M : MathModel) (sim : Simulator) :
    (sim.check_ball_to_ball_collisions M).balls =
      (ball_pairs sim.balls.length).foldl (fun balls p =>
        match check_ball_pair M sim.world_conf balls p.1 p.2 with
        | some coll_ev =>
            adjust_for_ball_to_ball_collisions sim.world_conf balls coll_ev
        | none => balls) sim.balls := rfl

/-- Claim C2: two balls exactly `2 * ball_radius` apart, moving head-on with
equal and opposite velocities along the line joining their centers, with
ball-ball restitution 1, have their velocities exactly swapped by one
execution of the ball-ball collision pass. The hypotheses on `M.sqrt` say
that the library square root is exact at the squared separation. -/
theorem C2_head_on_swap (M : MathModel) (sim : Simulator) (b0 b1 : Ball)
    (k R : ℚ)
    (hballs : sim.balls = [b0, b1])
    (hR : sim.world_conf.ball_radius = R)
    (hRpos : 0 < R)
    (hrest : sim.world_conf.ball_ball_rest = 1)
    (hsep : (b1.pos - b0.pos).normSq = (2 * R) ^ 2)
    (hsqrt : M.sqrt ((b1.pos - b0.pos).normSq) = 2 * R)
    (hkpos : 0 < k)
    (hu0 : b0.u = k • (b1.pos - b0.pos))
    (hu1 : b1.u = (-k) • (b1.pos - b0.pos)) :
    (sim.check_ball_to_ball_collisions M).balls =
      [{ b0 with u := b1.u }, { b1 with u := b0.u }] := by
  have h2R : (0 : ℚ) < 2 * R := by linarith
  have h2Rne : (2 * R) ≠ 0 := ne_of_gt h2R
  have hnorm : M.norm (b1.pos - b0.pos) = 2 * R := hsqrt
  have hS : (b1.pos.x - b0.pos.x) * (b1.pos.x - b0.pos.x) +
      (b1.pos.y - b0.pos.y) * (b1.pos.y - b0.pos.y) +
      (b1.pos.z - b0.pos.z) * (b1.pos.z - b0.pos.z) = (2 * R) ^ 2 := by
    simpa [JVector3.normSq, JVector3.dot] using hsep
  have happr : calc_norm_apprch_v M b0.pos b1.pos b0.u b1.u = 4 * k * R := by
    simp only [calc_norm_apprch_v]
    rw [hnorm, hu0, hu1]
    simp only [JVector3.smul_def, JVector3.sub_def, JVector3.dot]
    rw [div_eq_iff h2Rne]
    linear_combination (2 * k) * hS
  have hev : check_ball_pair M sim.world_conf [b0, b1] 0 1 =
      some ⟨0, 1, (1 / (2 * R)) • (b1.pos - b0.pos)⟩ := by
    simp only [check_ball_pair, List.getD_cons_zero, List.getD_cons_succ]
    rw [hnorm, happr]
    rw [if_pos h2R, if_pos (by positivity : 4 * k * R > 0),
      if_pos (by rw [hR] : 2 * R ≤ 2 * sim.world_conf.ball_radius)]
  have hdot0 : b0.u.dot ((1 / (2 * R)) • (b1.pos - b0.pos)) = 2 * k * R := by
    rw [hu0]
    simp only [JVector3.smul_def, JVector3.sub_def, JVector3.dot]
    field_simp
    linear_combination k * hS
  have hdot1 : b1.u.dot ((1 / (2 * R)) • (b1.pos - b0.pos)) =
      -(2 * k * R) := by
    rw [hu1]
    simp only [JVector3.smul_def, JVector3.sub_def, JVector3.dot]
    field_simp
    linear_combination (-4 * k * R ^ 2) * hS
  have hcompa : (b0.u.dot ((1 / (2 * R)) • (b1.pos - b0.pos))) •
      ((1 / (2 * R)) • (b1.pos - b0.pos)) = k • (b1.pos - b0.pos) := by
    rw [hdot0]
    simp only [JVector3.smul_def, JVector3.sub_def, JVector3.mk.injEq]
    refine ⟨?_, ?_, ?_⟩ <;> (field_simp; ring)
  have hcompb : (b1.u.dot ((1 / (2 * R)) • (b1.pos - b0.pos))) •
      ((1 / (2 * R)) • (b1.pos - b0.pos)) = (-k) • (b1.pos - b0.pos) := by
    rw [hdot1]
    simp only [JVector3.smul_def, JVector3.sub_def, JVector3.mk.injEq]
    refine ⟨?_, ?_, ?_⟩ <;> (field_simp; ring)
  rw [check_ball_to_ball_balls, hballs,
    show ([b0, b1] : List Ball).length = 2 from rfl, ball_pairs_two,
    List.foldl_cons, List.foldl_nil, hev]
  show adjust_for_ball_to_ball_collisions sim.world_conf [b0, b1]
      ⟨0, 1, (1 / (2 * R)) • (b1.pos - b0.pos)⟩ = _
  simp only [adjust_for_ball_to_ball_collisions, List.getD_cons_zero,
    List.getD_cons_succ, List.set_cons_zero, List.set_cons_succ,
    List.cons.injEq, and_true]
  rw [hrest, hcompa, hcompb]
  constructor
  · show Ball.mk _ _ _ _ _ = Ball.mk _ _ _ _ _
    simp only [Ball.mk.injEq, true_and, and_true]
    rw [hu0, hu1]
    simp only [JVector3.smul_def, JVector3.sub_def, JVector3.add_def,
      JVector3.mk.injEq]
    refine ⟨by ring, by ring, by ring⟩
  · show Ball.mk _ _ _ _ _ = Ball.mk _ _ _ _ _
    simp only [Ball.mk.injEq, true_and, and_true]
    rw [hu0, hu1]
    simp only [JVector3.smul_def, JVector3.sub_def, JVector3.add_def,
      JVector3.mk.injEq]
    refine ⟨by ring, by ring, by ring⟩

/-- Concrete balls for the C2 witness: centers 2 apart on the x-axis,
radius 1, equal and opposite velocities along the center line. -/
def b0W2 : Ball :=
  { pos := ⟨0, 0, 1⟩, u := ⟨2, 0, 0⟩, rot := Quat.id,
    urot_axis := ⟨1, 0, 0⟩, urot_angle := 0 }

def b1W2 : Ball :=
  { pos := ⟨2, 0, 1⟩, u := ⟨-2, 0, 0⟩, rot := Quat.id,
    urot_axis := ⟨1, 0, 0⟩, urot_angle := 0 }

def simW2 : Simulator :=
  Simulator.new [b0W2, b1W2]
    { ball_radius := 1, ball_weight := 1, ball_ball_rest := 1,
      ball_cloth_rest := 1 / 2, ball_spot_poss := [],
      ball_spot_radius_factor := 1 / 10, gravity := -10 }
    (1 / 10)

/-- Witness for C2 at the concrete head-on pair. -/
theorem C2_head_on_swap_witness :
    (simW2.check_ball_to_ball_collisions Mw).balls =
      [{ b0W2 with u := b1W2.u }, { b1W2 with u := b0W2.u }] :=
  C2_head_on_swap Mw simW2 b0W2 b1W2 1 1 rfl rfl (by norm_num) rfl
    (by norm_num [b0W2, b1W2, JVector3.normSq, JVector3.dot])
    (by norm_num [Mw, b0W2, b1W2, JVector3.normSq, JVector3.dot])
    (by norm_num) (by norm_num [b0W2, b1W2])
    (by norm_num [b0W2, b1W2])

end ClaimC2

section ClaimC3

/-- Three collinear touching-chain balls for the C3 counterexample: ball 0
moves toward ball 1, which touches ball 2; balls 1 and 2 are at rest. -/
def b0W3 : Ball :=
  { pos := ⟨0, 0, 1⟩, u := ⟨1, 0, 0⟩, rot := Quat.id,
    urot_axis := ⟨1, 0, 0⟩, urot_angle := 0 }

def b1W3 : Ball :=
  { pos := ⟨2, 0, 1⟩, u := ⟨0, 0, 0⟩, rot := Quat.id,
    urot_axis := ⟨1, 0, 0⟩, urot_angle := 0 }

def b2W3 : Ball :=
  { pos := ⟨4, 0, 1⟩, u := ⟨0, 0, 0⟩, rot := Quat.id,
    urot_axis := ⟨1, 0, 0⟩, urot_angle := 0 }

def simW3 : Simulator :=
  Simulator.new [b0W3, b1W3, b2W3]
    { ball_radius := 1, ball_weight := 1, ball_ball_rest := 19 / 20,
      ball_cloth_rest := 1 / 2, ball_spot_poss := [],
      ball_spot_radius_factor := 1 / 10, gravity := -10 }
    (1 / 10)

/-- Unfolding equation for the spec-side pre-pass variant, for rewriting. -/
theorem check_ball_to_ball_prepass_balls (M : MathModel) (sim : Simulator) :
    (sim.check_ball_to_ball_collisions_prepass M).balls =
      ((ball_pairs sim.balls.length).filterMap
        (fun p => check_ball_pair M sim.world_conf sim.balls p.1 p.2)).foldl
        (fun balls coll_ev =>
          adjust_for_ball_to_ball_collisions_prepass sim.world_conf sim.balls
            balls coll_ev) sim.balls := rfl

/-- Evaluation of the source ball-ball pass on the three-ball chain: the
pair (1, 2) is resolved against ball 1's velocity as already modified by the
earlier pair (0, 1) of the same pass, so ball 2 leaves with velocity
`e_bb ^ 2 = 361/400` along x. -/
theorem simW3_code_eval : (simW3.check_ball_to_ball_collisions Mw).balls =
    [{ b0W3 with u := ⟨0, 0, 0⟩ }, { b1W3 with u := ⟨0, 0, 0⟩ },
     { b2W3 with u := ⟨361 / 400, 0, 0⟩ }] := by
  rw [check_ball_to_ball_balls,
    show ball_pairs simW3.balls.length = [(0, 1), (0, 2), (1, 2)] from rfl,
    show simW3.balls = [b0W3, b1W3, b2W3] from rfl]
  norm_num [check_ball_pair, adjust_for_ball_to_ball_collisions,
    calc_norm_apprch_v, MathModel.norm, Mw, b0W3, b1W3, b2W3,
    JVector3.dot, JVector3.normSq, simW3, Simulator.new]

/-- Evaluation of the spec-side pre-pass semantics on the same chain: only
the pair (0, 1) collides on pre-pass velocities, so ball 2 stays at rest. -/
theorem simW3_prepass_eval :
    (simW3.check_ball_to_ball_collisions_prepass Mw).balls =
      [{ b0W3 with u := ⟨0, 0, 0⟩ }, { b1W3 with u := ⟨19 / 20, 0, 0⟩ },
       b2W3] := by
  rw [check_ball_to_ball_prepass_balls,
    show ball_pairs simW3.balls.length = [(0, 1), (0, 2), (1, 2)] from rfl,
    show simW3.balls = [b0W3, b1W3, b2W3] from rfl]
  norm_num [check_ball_pair, adjust_for_ball_to_ball_collisions_prepass,
    calc_norm_apprch_v, MathModel.norm, Mw, b0W3, b1W3, b2W3,
    JVector3.dot, JVector3.normSq, simW3, Simulator.new,
    List.filterMap_cons, List.filterMap_nil]

/-- Counterexample to claim C3: in the source pass, the pair (1, 2) is
resolved using ball 1's velocity as already modified by the earlier pair
(0, 1) in the same pass, so ball 2 leaves the pass with velocity
`(e_bb ^ 2, 0, 0)`; resolving every pair from the pre-pass velocities (the
spec's reading) leaves ball 2 at rest, and the two passes disagree on this
input. -/
theorem C3_counterexample :
    ((simW3.check_ball_to_ball_collisions Mw).balls.getD 2 default).u =
      ⟨361 / 400, 0, 0⟩ ∧
    ((simW3.check_ball_to_ball_collisions_prepass Mw).balls.getD 2
      default).u = ⟨0, 0, 0⟩ ∧
    (simW3.check_ball_to_ball_collisions Mw).balls ≠
      (simW3.check_ball_to_ball_collisions_prepass Mw).balls := by
  refine ⟨?_, ?_, ?_⟩
  · rw [simW3_code_eval]
    rfl
  · rw [simW3_prepass_eval]
    rfl
  · rw [simW3_code_eval, simW3_prepass_eval]
    norm_num [b0W3, b1W3, b2W3]

/-- With the pre-pass state equal to the live state, the spec-style
adjustment coincides with the source adjustment. -/
theorem adjust_prepass_self (conf : WorldConf) (balls : List Ball)
    (coll_ev : BallBallCollisionEvent) :
    adjust_for_ball_to_ball_collisions_prepass conf balls balls coll_ev =
      adjust_for_ball_to_ball_collisions conf balls coll_ev := rfl

/-- Claim C3, amended: the pairs of a single ball-ball pass are visited in
lexicographic order and each resolved pair's adjustment is computed from the
velocities current when the pair is visited, which may already reflect
earlier pairs of the same pass; only in a configuration with a single pair —
exactly two balls — does the pass coincide with the spec's
"resolve every pair from pre-pass velocities" semantics. -/
theorem C3_two_ball_prepass (M : MathModel) (sim : Simulator) (b0 b1 : Ball)
    (hballs : sim.balls = [b0, b1]) :
    sim.check_ball_to_ball_collisions M =
      sim.check_ball_to_ball_collisions_prepass M := by
  unfold Simulator.check_ball_to_ball_collisions
    Simulator.check_ball_to_ball_collisions_prepass
  rw [hballs]
  rw [show ([b0, b1] : List Ball).length = 2 from rfl, ball_pairs_two]
  cases h : check_ball_pair M sim.world_conf [b0, b1] 0 1 with
  | none => simp [h]
  | some coll_ev => simp [h, adjust_prepass_self]

/-- Witness for the amended C3 at the concrete two-ball simulator. -/
theorem C3_two_ball_prepass_witness :
    simW2.check_ball_to_ball_collisions Mw =
      simW2.check_ball_to_ball_collisions_prepass Mw :=
  C3_two_ball_prepass Mw simW2 b0W2 b1W2 rfl

end ClaimC3

section ClaimC1

/-- Rotating a point by the identity quaternion returns the point. -/
theorem rotate_point_qid (p : JVector3) : rotate_point p Quat.id = p := by
  obtain ⟨px, py, pz⟩ := p
  simp only [rotate_point, Quat.mul, Quat.conj, Quat.id, JVector3.mk.injEq]
  refine ⟨by ring, by ring, by ring⟩

/-- Subtracting and re-adding the pivot cancels. -/
theorem JVector3.sub_add_cancel_vec (p x : JVector3) : p - x + x = p := by
  obtain ⟨a, b, c⟩ := p
  obtain ⟨d, e, f⟩ := x
  simp only [JVector3.sub_def, JVector3.add_def, JVector3.mk.injEq]
  refine ⟨by ring, by ring, by ring⟩

/-- A ball with zero spin rate is left unchanged by the spin adjustment,
provided the library's zero-angle axis rotation is the identity. -/
theorem adjust_ball_for_spin_zero_rate (M : MathModel)
    (hq0 : ∀ a, M.fromAxisAngle a 0 = Quat.id) (conf : WorldConf)
    (ball : Ball) (n : JVector3) (hang : ball.urot_angle = 0) :
    adjust_ball_for_spin M conf ball n = ball := by
  unfold adjust_ball_for_spin
  by_cases hdot : ball.urot_axis.dot n > 0
  · rw [if_pos hdot]
    rw [show ball.urot_angle * ball.urot_axis.dot n * (1 / 10000) = 0 by
      rw [hang]; ring]
    rw [hq0]
    simp only [rotate_point_qid, JVector3.sub_add_cancel_vec]
  · rw [if_neg hdot]

/-- The resting-clamped single-ball invariant used for claim C1: the
simulator holds exactly one ball, sitting exactly at `ball_radius` with zero
vertical velocity and zero spin rate, in a world of radius `R`. -/
def singleClamped (R : ℚ) (sim : Simulator) : Prop :=
  sim.world_conf.ball_radius = R ∧
  ∃ b : Ball, sim.balls = [b] ∧ b.pos.z = R ∧ b.u.z = 0 ∧ b.urot_angle = 0

theorem singleClamped_ballball (M : MathModel) (sim : Simulator) (R : ℚ)
    (h : singleClamped R sim) :
    singleClamped R (sim.check_ball_to_ball_collisions M) := by
  obtain ⟨hR, b, hb, h1, h2, h3⟩ := h
  refine ⟨hR, b, ?_, h1, h2, h3⟩
  rw [check_ball_to_ball_balls, hb]
  rfl

theorem singleClamped_cloth (M : MathModel)
    (hq0 : ∀ a, M.fromAxisAngle a 0 = Quat.id) (sim : Simulator) (R : ℚ)
    (h : singleClamped R sim) :
    singleClamped R (sim.check_ball_to_cloth_collisions M) := by
  obtain ⟨hR, b, hb, h1, h2, h3⟩ := h
  refine ⟨hR, b, ?_, h1, h2, h3⟩
  show sim.balls.map _ = [b]
  rw [hb, List.map_cons, List.map_nil]
  have hcond : b.u.z ≤ 0 ∧ b.pos.z ≤ sim.world_conf.ball_radius :=
    ⟨le_of_eq h2, le_of_eq (by rw [h1, hR])⟩
  rw [if_pos hcond]
  have hadj : adjust_for_ball_to_cloth_collisions sim.world_conf b
      ⟨0, 0, 1⟩ = b := by
    unfold adjust_for_ball_to_cloth_collisions
    show Ball.mk _ _ _ _ _ = _
    obtain ⟨bp, bu, br, ba, bg⟩ := b
    simp only [Ball.mk.injEq, and_true, true_and]
    obtain ⟨ux, uy, uz⟩ := bu
    simp only at h2
    simp only [JVector3.dot, JVector3.smul_def, JVector3.sub_def,
      JVector3.mk.injEq]
    subst h2
    refine ⟨by ring, by ring, by ring⟩
  rw [hadj, adjust_ball_for_spin_zero_rate M hq0 _ _ _ h3]

theorem singleClamped_snap (sim : Simulator) (R : ℚ)
    (h : singleClamped R sim) : singleClamped R sim.check_snap_to_cloth := by
  obtain ⟨hR, b, hb, h1, h2, h3⟩ := h
  refine ⟨hR, b, ?_, h1, h2, h3⟩
  show sim.balls.map _ = [b]
  rw [hb, List.map_cons, List.map_nil]
  rw [if_neg]
  intro hcond
  exact absurd (h2 ▸ hcond.2.1) (lt_irrefl 0)

theorem singleClamped_gravity (sim : Simulator) (R : ℚ)
    (h : singleClamped R sim) : singleClamped R sim.apply_gravity := by
  obtain ⟨hR, b, hb, h1, h2, h3⟩ := h
  refine ⟨hR, b, ?_, h1, h2, h3⟩
  show sim.balls.map _ = [b]
  rw [hb, List.map_cons, List.map_nil]
  rw [if_neg]
  rw [h1, hR]
  exact lt_irrefl R

theorem singleClamped_velocities (M : MathModel) (sim : Simulator) (R : ℚ)
    (h : singleClamped R sim) :
    singleClamped R (sim.apply_ball_velocities M) := by
  obtain ⟨hR, b, hb, h1, h2, h3⟩ := h
  refine ⟨hR, b.apply_velocities M sim.ts, ?_, ?_, h2, h3⟩
  · show sim.balls.map _ = _
    rw [hb, List.map_cons, List.map_nil]
  · show (b.pos + sim.ts • b.u).z = R
    simp only [JVector3.add_def, JVector3.smul_def]
    rw [show (b.pos.z + sim.ts * b.u.z) = b.pos.z + sim.ts * b.u.z from rfl]
    rw [h2, h1]
    ring

theorem singleClamped_progressSim (M : MathModel)
    (hq0 : ∀ a, M.fromAxisAngle a 0 = Quat.id) (sim : Simulator) (R : ℚ)
    (h : singleClamped R sim) : singleClamped R (sim.progressSim M) := by
  have h1 := singleClamped_ballball M sim R h
  have h2 := singleClamped_cloth M hq0 _ R h1
  have h3 := singleClamped_snap _ R h2
  have h4 := singleClamped_gravity _ R h3
  have h5 := singleClamped_velocities M _ R h4
  obtain ⟨hR, b, hb, hz, hu, ha⟩ := h5
  exact ⟨hR, b, hb, hz, hu, ha⟩

theorem singleClamped_progressIterate (M : MathModel)
    (hq0 : ∀ a, M.fromAxisAngle a 0 = Quat.id) (R : ℚ) (n : ℕ) :
    ∀ sim : Simulator, singleClamped R sim →
      singleClamped R (progressIterate M n sim) := by
  induction n with
  | zero => intro sim h; exact h
  | succ n ih =>
    intro sim h
    exact ih _ (singleClamped_progressSim M hq0 sim R h)

/-- The remainder of one `progress()` call after the snap-to-cloth pass:
gravity, integration, clock advance (`jlib.rs`: `Simulator::progress`, lines
after `check_snap_to_cloth`). -/
def Simulator.progress_after_snap (M : MathModel) (sim : Simulator) :
    Simulator :=
  let sim4 := sim.apply_gravity
  let sim5 := sim4.apply_ball_velocities M
  { sim5 with t := sim5.t + sim5.ts }

/-- Claim C1: once the snap-to-cloth pass has clamped the single ball of a
simulation (vertical position exactly `ball_radius`, vertical velocity
exactly 0 — a ball dropped from rest carries no spin, `urot_angle = 0`),
then after the rest of that step and after every subsequent `progress()`
call the ball's vertical position is still exactly `ball_radius` and its
vertical velocity is still exactly 0. The hypothesis on `M` says that the
library's zero-angle axis rotation is the identity rotation, which holds
exactly even in `f64`. -/
theorem C1_no_micro_bounce (M : MathModel)
    (hq0 : ∀ a, M.fromAxisAngle a 0 = Quat.id)
    (sim : Simulator) (b : Ball)
    (hrest : sim.world_conf.ball_cloth_rest < 1)
    (hballs : sim.balls = [b])
    (hpos : b.pos.z = sim.world_conf.ball_radius)
    (hvel : b.u.z = 0)
    (hang : b.urot_angle = 0)
    (n : ℕ) :
    ∃ b2 : Ball,
      (progressIterate M n (sim.progress_after_snap M)).balls = [b2] ∧
      b2.pos.z = sim.world_conf.ball_radius ∧ b2.u.z = 0 := by
  have hstart : singleClamped sim.world_conf.ball_radius sim :=
    ⟨rfl, b, hballs, hpos, hvel, hang⟩
  have hafter : singleClamped sim.world_conf.ball_radius
      (sim.progress_after_snap M) := by
    have h4 := singleClamped_gravity sim _ hstart
    have h5 := singleClamped_velocities M _ _ h4
    obtain ⟨hR, b1, hb1, hz, hu, ha⟩ := h5
    exact ⟨hR, b1, hb1, hz, hu, ha⟩
  have hiter := singleClamped_progressIterate M hq0 _ n _ hafter
  obtain ⟨hR, b2, hb2, hz, hu, _⟩ := hiter
  exact ⟨b2, hb2, hz, hu⟩

/-- Concrete clamped one-ball simulator for the C1 witness. -/
def simW1 : Simulator :=
  Simulator.new
    [{ pos := ⟨0, 0, 1⟩, u := ⟨0, 0, 0⟩, rot := Quat.id,
       urot_axis := ⟨0, 0, 1⟩, urot_angle := 0 }]
    { ball_radius := 1, ball_weight := 1, ball_ball_rest := 1,
      ball_cloth_rest := 1 / 2, ball_spot_poss := [],
      ball_spot_radius_factor := 1 / 10, gravity := -10 }
    (1 / 10)

/-- Witness for C1 after three further steps of the concrete simulator. -/
theorem C1_no_micro_bounce_witness :
    ∃ b2 : Ball,
      (progressIterate Mw 3 (simW1.progress_after_snap Mw)).balls = [b2] ∧
      b2.pos.z = simW1.world_conf.ball_radius ∧ b2.u.z = 0 :=
  C1_no_micro_bounce Mw (fun _ => rfl) simW1
    { pos := ⟨0, 0, 1⟩, u := ⟨0, 0, 0⟩, rot := Quat.id,
      urot_axis := ⟨0, 0, 1⟩, urot_angle := 0 }
    (by norm_num [simW1, Simulator.new]) rfl rfl rfl rfl 3

end ClaimC1

section InterpolationHelpers

/-- In a strictly increasing snapshot list of length at least two, the first
element's timestamp is strictly below the last element's. -/
theorem chain_head_lt_last (l : List SimulationState)
    (hc : List.Chain' (fun a b => a.t < b.t) l) (h2 : 2 ≤ l.length) :
    (l.getD 0 default).t < (l.getD (l.length - 1) default).t := by
  match l, hc, h2 with
  | s0 :: s1 :: rest, hc, h2 =>
    induction rest generalizing s0 s1 with
    | nil =>
      have := List.chain'_cons.mp hc
      simpa using this.1
    | cons s2 rest ih =>
      have hc1 := List.chain'_cons.mp hc
      have htail := ih s1 s2 hc1.2 (by simp)
      have h01 : s0.t < s1.t := hc1.1
      simp only [List.getD_cons_zero, List.length_cons] at htail ⊢
      simp only [Nat.add_sub_cancel] at htail ⊢
      calc s0.t < s1.t := h01
        _ ≤ _ := by
          rcases lt_or_eq_of_le (Nat.le_refl 0) with h | _
          · omega
          · exact le_of_lt (by simpa using htail) |>.trans (le_refl _) |>.trans_eq (by simp)

/-- Interpolating a ball list succeeds whenever the second snapshot has at
least as many balls as the first. -/
theorem interpolate_balls_some (M : MathModel) (t1 t2 t : ℚ) :
    ∀ (bs1 bs2 : List Ball), bs1.length ≤ bs2.length →
      ∃ l, interpolate_balls M bs1 bs2 t1 t2 t = some l := by
  intro bs1
  induction bs1 with
  | nil => intro bs2 _; exact ⟨[], rfl⟩
  | cons b1 r1 ih =>
    intro bs2 hlen
    cases bs2 with
    | nil => simp at hlen
    | cons b2 r2 =>
      obtain ⟨l, hl⟩ := ih r2 (by simpa using hlen)
      exact ⟨{ pos := calc_interpolated_vector b1.pos b2.pos t1 t2 t,
               rot := calc_interpolated_quaternion M b1.rot b2.rot t1 t2 t,
               u := JVector3.zeros,
               urot_axis := M.normalize ⟨1, 0, 0⟩,
               urot_angle := 0 } :: l, by simp only [interpolate_balls, hl]⟩

/-- Every ball produced by the interpolation loop carries zero linear
velocity and zero spin rate. -/
theorem interpolate_balls_fields (M : MathModel) (t1 t2 t : ℚ) :
    ∀ (bs1 bs2 l : List Ball),
      interpolate_balls M bs1 bs2 t1 t2 t = some l →
      ∀ b ∈ l, b.u = JVector3.zeros ∧ b.urot_angle = 0 := by
  intro bs1
  induction bs1 with
  | nil =>
    intro bs2 l h
    cases bs2 <;> · simp only [interpolate_balls] at h
                    cases h
                    simp
  | cons b1 r1 ih =>
    intro bs2 l h
    cases bs2 with
    | nil => simp only [interpolate_balls] at h; cases h
    | cons b2 r2 =>
      simp only [interpolate_balls] at h
      cases hrec : interpolate_balls M r1 r2 t1 t2 t with
      | none => rw [hrec] at h; cases h
      | some rest =>
        rw [hrec] at h
        cases h
        intro b hb
        rcases List.mem_cons.mp hb with hb | hb
        · subst hb; exact ⟨rfl, rfl⟩
        · exact ih r2 rest hrec b hb

/-- The bracket search succeeds on a strictly ordered list with uniform ball
counts when the query time is at or past the head and strictly before the
last element. -/
theorem bracket_loop_some (M : MathModel) (t : ℚ) :
    ∀ (l : List SimulationState) (s0 : SimulationState),
      List.Chain' (fun a b => a.t < b.t) (s0 :: l) →
      (∀ s1 ∈ s0 :: l, ∀ s2 ∈ s0 :: l, s1.balls.length = s2.balls.length) →
      s0.t ≤ t → t < (((s0 :: l).getLast?).getD default).t →
      ∃ st, bracket_loop M t ((s0 :: l).zip l) = some st := by
  intro l
  induction l with
  | nil =>
    intro s0 _ _ hle hlast
    simp only [List.getLast?_singleton, Option.getD_some] at hlast
    exact absurd hlast (not_lt.mpr hle)
  | cons s1 rest ih =>
    intro s0 hc hcount hle hlast
    rw [List.zip_cons_cons]
    by_cases hbr : t ≤ s1.t
    · rw [show bracket_loop M t ((s0, s1) :: (s1 :: rest).zip rest) =
        (if s0.t ≤ t ∧ s1.t ≥ t then
          match interpolate_balls M s0.balls s1.balls s0.t s1.t t with
          | some balls => some ⟨t, balls⟩
          | none => none
        else bracket_loop M t ((s1 :: rest).zip rest)) from rfl]
      rw [if_pos ⟨hle, hbr⟩]
      have hcnt : s0.balls.length ≤ s1.balls.length :=
        le_of_eq (hcount s0 (by simp) s1 (by simp))
      obtain ⟨bl, hbl⟩ := interpolate_balls_some M s0.t s1.t t _ _ hcnt
      rw [hbl]
      exact ⟨_, rfl⟩
    · rw [show bracket_loop M t ((s0, s1) :: (s1 :: rest).zip rest) =
        (if s0.t ≤ t ∧ s1.t ≥ t then
          match interpolate_balls M s0.balls s1.balls s0.t s1.t t with
          | some balls => some ⟨t, balls⟩
          | none => none
        else bracket_loop M t ((s1 :: rest).zip rest)) from rfl]
      rw [if_neg (by intro hcond; exact hbr hcond.2)]
      refine ih s1 (List.chain'_cons.mp hc).2 ?_ ?_ ?_
      · intro a ha b hb
        exact hcount a (List.mem_cons_of_mem _ ha) b (List.mem_cons_of_mem _ hb)
      · exact le_of_lt (lt_of_not_le hbr)
      · rwa [List.getLast?_cons_cons] at hlast

/-- Every state produced by the bracket search has the query timestamp and
only zero-velocity, zero-spin balls. -/
theorem bracket_loop_fields (M : MathModel) (t : ℚ) :
    ∀ (pairs : List (SimulationState × SimulationState))
      (st : SimulationState), bracket_loop M t pairs = some st →
      st.t = t ∧ ∀ b ∈ st.balls, b.u = JVector3.zeros ∧ b.urot_angle = 0 := by
  intro pairs
  induction pairs with
  | nil => intro st h; cases h
  | cons p rest ih =>
    intro st h
    obtain ⟨s1, s2⟩ := p
    simp only [bracket_loop] at h
    by_cases hcond : s1.t ≤ t ∧ s2.t ≥ t
    · rw [if_pos hcond] at h
      cases hint : interpolate_balls M s1.balls s2.balls s1.t s2.t t with
      | none => rw [hint] at h; cases h
      | some balls =>
        rw [hint] at h
        cases h
        exact ⟨rfl, interpolate_balls_fields M s1.t s2.t t _ _ _ hint⟩
    · rw [if_neg hcond] at h
      exact ih st h

end InterpolationHelpers

section ClaimC7

/-- Claim C7: on a non-empty strictly ordered history, interpolation at a
time at or before the first snapshot's timestamp returns that snapshot's
ball states retimed to the query time, and at a time at or after the last
snapshot's timestamp returns the last snapshot's ball states retimed to the
query time. -/
theorem C7_clamp_to_endpoints (M : MathModel) (seq : SimulationStateSeq)
    (t : ℚ) (hne : seq.states ≠ [])
    (hchain : List.Chain' (fun a b => a.t < b.t) seq.states) :
    (t ≤ (seq.states.getD 0 default).t →
      seq.calc_interpolated_at M t =
        some ⟨t, (seq.states.getD 0 default).balls⟩) ∧
    ((seq.states.getD (seq.states.length - 1) default).t ≤ t →
      seq.calc_interpolated_at M t =
        some ⟨t, (seq.states.getD (seq.states.length - 1) default).balls⟩) := by
  have hlen0 : ¬ seq.states.length = 0 := by
    simpa using hne
  constructor
  · intro h1
    show (if seq.states.length = 0 then none else _) = _
    rw [if_neg hlen0, if_pos h1]
  · intro h2
    show (if seq.states.length = 0 then none else _) = _
    rw [if_neg hlen0]
    by_cases h1 : t ≤ (seq.states.getD 0 default).t
    · rw [if_pos h1]
      rcases Nat.lt_or_ge seq.states.length 2 with hl | hl
    -- with a single snapshot the first and last entries coincide
      · have hone : seq.states.length = 1 := by omega
        rw [hone]
      · exfalso
        have := chain_head_lt_last seq.states hchain hl
        have hcontr := lt_of_le_of_lt (h2.trans h1) this
        exact lt_irrefl _ hcontr
    · rw [if_neg h1, if_pos (ge_iff_le.mpr h2)]

/-- Two-snapshot history with identical single-ball states, for witnesses. -/
def seqW : SimulationStateSeq :=
  ⟨[⟨0, [b0W2]⟩, ⟨1, [b0W2]⟩]⟩

/-- Witness for C7: query at the first timestamp returns the first
snapshot's balls. -/
theorem C7_clamp_to_endpoints_witness :
    seqW.calc_interpolated_at Mw 0 =
      some ⟨0, (seqW.states.getD 0 default).balls⟩ :=
  (C7_clamp_to_endpoints Mw seqW 0 (by simp [seqW])
    (by simp [seqW, List.chain'_cons])).1 (by norm_num [seqW])

end ClaimC7

section ClaimC8

/-- Counterexample to claim C8 as stated: a non-empty, strictly increasing
history whose second snapshot holds fewer balls than its first makes the
interpolation loop index `state2.balls` out of bounds, a Rust panic, for an
interior query time — so the function does not return a state for every
strictly ordered non-empty history and query time. -/
def seqBad : SimulationStateSeq :=
  ⟨[⟨0, [b0W2]⟩, ⟨1, []⟩]⟩

theorem C8_counterexample :
    seqBad.states ≠ [] ∧
    List.Chain' (fun a b => a.t < b.t) seqBad.states ∧
    seqBad.calc_interpolated_at Mw (1 / 2) = none := by
  refine ⟨by simp [seqBad], by simp [seqBad, List.chain'_cons], ?_⟩
  show (if seqBad.states.length = 0 then none else _) = _
  rw [if_neg (by simp [seqBad])]
  rw [if_neg (show ¬ (1 / 2 : ℚ) ≤ (seqBad.states.getD 0 default).t by
    norm_num [seqBad])]
  rw [if_neg (show ¬ (1 / 2 : ℚ) ≥
      (seqBad.states.getD (seqBad.states.length - 1) default).t by
    norm_num [seqBad])]
  show bracket_loop Mw (1 / 2) (seqBad.states.zip seqBad.states.tail) = none
  rw [show seqBad.states.zip seqBad.states.tail =
    [(⟨0, [b0W2]⟩, ⟨1, []⟩)] from rfl]
  simp only [bracket_loop]
  rw [if_pos (by norm_num)]
  rfl

/-- Claim C8, amended: interpolation on an empty history aborts; on a
non-empty strictly ordered history in which every snapshot carries the same
number of balls it returns a state for every query time and never reaches
the fall-through failure branch of the bracket search. -/
theorem C8_empty_abort_nonempty_total (M : MathModel)
    (seq : SimulationStateSeq) (t : ℚ) :
    (seq.states = [] → seq.calc_interpolated_at M t = none) ∧
    (seq.states ≠ [] →
      List.Chain' (fun a b => a.t < b.t) seq.states →
      (∀ s1 ∈ seq.states, ∀ s2 ∈ seq.states,
        s1.balls.length = s2.balls.length) →
      ∃ st, seq.calc_interpolated_at M t = some st) := by
  constructor
  · intro h
    show (if seq.states.length = 0 then none else _) = _
    rw [if_pos (by simp [h])]
  · intro hne hchain hcount
    have hlen0 : ¬ seq.states.length = 0 := by simpa using hne
    show ∃ st, (if seq.states.length = 0 then none else _) = some st
    rw [if_neg hlen0]
    by_cases h1 : t ≤ (seq.states.getD 0 default).t
    · rw [if_pos h1]; exact ⟨_, rfl⟩
    · rw [if_neg h1]
      by_cases h2 : t ≥ (seq.states.getD (seq.states.length - 1) default).t
      · rw [if_pos h2]; exact ⟨_, rfl⟩
      · rw [if_neg h2]
        match hstates : seq.states, hne with
        | s0 :: l, _ =>
          refine bracket_loop_some M t l s0 (hstates ▸ hchain) ?_ ?_ ?_
          · intro a ha b hb
            exact hcount a (hstates ▸ ha) b (hstates ▸ hb)
          · have := lt_of_not_le h1
            rw [hstates] at this
            exact le_of_lt (by simpa using this)
          · have := lt_of_not_le h2
            rw [hstates] at this
            have hconv : ((s0 :: l).getLast?).getD default =
                (s0 :: l).getD ((s0 :: l).length - 1) default := by
              rw [List.getLast?_eq_getElem?]
              exact (List.getD_eq_getElem?_getD _ _ _).symm
            rw [hconv]
            simpa using this

/-- Witness for the amended C8: on the uniform two-snapshot history, an
interior query returns a state. -/
theorem C8_empty_abort_nonempty_total_witness :
    ∃ st, seqW.calc_interpolated_at Mw (1 / 2) = some st :=
  (C8_empty_abort_nonempty_total Mw seqW (1 / 2)).2 (by simp [seqW])
    (by simp [seqW, List.chain'_cons])
    (by intro s1 h1 s2 h2
        simp only [seqW, List.mem_cons, List.mem_singleton,
          List.not_mem_nil, or_false] at h1 h2
        rcases h1 with h1 | h1 <;> rcases h2 with h2 | h2 <;>
          subst h1 <;> subst h2 <;> rfl)

end ClaimC8

section ClaimC10

/-- Claim C10: when interpolation at an interior query time of a non-empty
strictly ordered history returns a state, that state's timestamp is exactly
the query time and every ball in it has linear velocity exactly zero and
spin rate exactly zero. -/
theorem C10_interior_zero_velocity (M : MathModel) (seq : SimulationStateSeq)
    (t : ℚ) (hne : seq.states ≠ [])
    (hchain : List.Chain' (fun a b => a.t < b.t) seq.states)
    (hfirst : (seq.states.getD 0 default).t < t)
    (hlast : t < (seq.states.getD (seq.states.length - 1) default).t)
    (st : SimulationState)
    (hcalc : seq.calc_interpolated_at M t = some st) :
    st.t = t ∧ ∀ b ∈ st.balls, b.u = JVector3.zeros ∧ b.urot_angle = 0 := by
  have hlen0 : ¬ seq.states.length = 0 := by simpa using hne
  rw [show seq.calc_interpolated_at M t =
    (if seq.states.length = 0 then none else _) from rfl] at hcalc
  rw [if_neg hlen0, if_neg (not_le.mpr hfirst),
    if_neg (not_le.mpr hlast)] at hcalc
  exact bracket_loop_fields M t _ st hcalc

/-- History for the C10 witness: one ball moving from the origin to
`(2, 0, 0)` between times 0 and 1. -/
def seqW10 : SimulationStateSeq :=
  ⟨[⟨0, [{ pos := ⟨0, 0, 0⟩, u := ⟨2, 0, 0⟩, rot := Quat.id,
           urot_axis := ⟨1, 0, 0⟩, urot_angle := 0 }]⟩,
    ⟨1, [{ pos := ⟨2, 0, 0⟩, u := ⟨2, 0, 0⟩, rot := Quat.id,
           urot_axis := ⟨1, 0, 0⟩, urot_angle := 0 }]⟩]⟩

/-- Witness for C10 at the midpoint query of the concrete history. -/
theorem C10_interior_zero_velocity_witness :
    (SimulationState.mk (1 / 2)
      [{ pos := ⟨1, 0, 0⟩, u := ⟨0, 0, 0⟩, rot := Quat.id,
         urot_axis := ⟨1, 0, 0⟩, urot_angle := 0 }]).t = 1 / 2 ∧
    ∀ b ∈ (SimulationState.mk (1 / 2)
      [{ pos := ⟨1, 0, 0⟩, u := ⟨0, 0, 0⟩, rot := Quat.id,
         urot_axis := ⟨1, 0, 0⟩, urot_angle := 0 }]).balls,
      b.u = JVector3.zeros ∧ b.urot_angle = 0 :=
  C10_interior_zero_velocity Mw seqW10 (1 / 2) (by simp [seqW10])
    (by simp [seqW10, List.chain'_cons])
    (by norm_num [seqW10]) (by norm_num [seqW10]) _
    (by show (if seqW10.states.length = 0 then none else _) = _
        rw [if_neg (by simp [seqW10])]
        rw [if_neg (show ¬ (1 / 2 : ℚ) ≤
            (seqW10.states.getD 0 default).t by norm_num [seqW10])]
        rw [if_neg (show ¬ (1 / 2 : ℚ) ≥
            (seqW10.states.getD (seqW10.states.length - 1) default).t by
          norm_num [seqW10])]
        show bracket_loop Mw (1 / 2)
          (seqW10.states.zip seqW10.states.tail) = _
        simp only [seqW10, List.zip_cons_cons, List.zip_nil_right,
          bracket_loop]
        rw [if_pos (by norm_num)]
        norm_num [interpolate_balls, calc_interpolated_vector,
          calc_interpolated_quaternion, Mw, MathModel.normalize,
          MathModel.norm, JVector3.normSq, JVector3.dot, JVector3.zeros])

end ClaimC10

section ClaimC9

@[simp] theorem progressIterate_ts (M : MathModel) (n : ℕ) :
    ∀ sim : Simulator, (progressIterate M n sim).ts = sim.ts := by
  induction n with
  | zero => intro sim; rfl
  | succ n ih => intro sim; exact ih (sim.progressSim M)

@[simp] theorem progressIterate_t_hard_limit (M : MathModel) (n : ℕ) :
    ∀ sim : Simulator, (progressIterate M n sim).t_hard_limit =
      sim.t_hard_limit := by
  induction n with
  | zero => intro sim; rfl
  | succ n ih => intro sim; exact ih (sim.progressSim M)

/-- The clock after `n` steps is the starting clock plus `n` timesteps. -/
theorem progressIterate_t (M : MathModel) (n : ℕ) :
    ∀ sim : Simulator, (progressIterate M n sim).t =
      sim.t + (n : ℚ) * sim.ts := by
  induction n with
  | zero => intro sim; simp [progressIterate]
  | succ n ih =>
    intro sim
    have := ih (sim.progressSim M)
    rw [show progressIterate M (n + 1) sim =
      progressIterate M n (sim.progressSim M) from rfl, this]
    push_cast
    simp only [progressSim_t, progressSim_ts]
    ring

/-- One-step decrease of the termination measure of the batch loop. -/
theorem run_measure_decreases (sim : Simulator) (h : 0 < sim.ts)
    (hlt : sim.t + sim.ts < sim.t_hard_limit) :
    (⌈(sim.t_hard_limit - (sim.t + sim.ts)) / sim.ts⌉).toNat <
      (⌈(sim.t_hard_limit - sim.t) / sim.ts⌉).toNat := by
  have hdiv : (sim.t_hard_limit - (sim.t + sim.ts)) / sim.ts =
      (sim.t_hard_limit - sim.t) / sim.ts - 1 := by
    field_simp
    ring
  have hone : (1 : ℚ) < (sim.t_hard_limit - sim.t) / sim.ts := by
    rw [lt_div_iff₀ h]
    linarith
  have hceil : 0 < ⌈(sim.t_hard_limit - sim.t) / sim.ts⌉ := by
    have hle := Int.le_ceil ((sim.t_hard_limit - sim.t) / sim.ts)
    have h1 : (1 : ℚ) < (⌈(sim.t_hard_limit - sim.t) / sim.ts⌉ : ℚ) :=
      lt_of_lt_of_le hone hle
    exact_mod_cast lt_trans zero_lt_one h1
  rw [hdiv, Int.ceil_sub_one]
  omega

/-- One unfolding of the batch-run loop. -/
theorem run_complete_unfold (M : MathModel) (sim : Simulator)
    (h : 0 < sim.ts) :
    sim.run_complete_simulation M h =
      if (sim.progressSim M).t_hard_limit ≤ (sim.progressSim M).t then
        ([], sim.progressSim M)
      else
        (⟨(sim.progressSim M).t, (sim.progressSim M).balls⟩ ::
          ((sim.progressSim M).run_complete_simulation M h).1,
         ((sim.progressSim M).run_complete_simulation M h).2) := by
  rw [Simulator.run_complete_simulation]

/-- Characterization of the batch run from any start state: the recorded
snapshots are exactly those of steps 1 through `n`, each strictly below the
hard limit, and the snapshot of step `n + 1` — the first at or past the
limit — is excluded. -/
theorem run_complete_spec (M : MathModel) :
    ∀ (mu : ℕ) (sim : Simulator) (h : 0 < sim.ts),
      (⌈(sim.t_hard_limit - sim.t) / sim.ts⌉).toNat = mu →
      ∃ n : ℕ,
        (sim.run_complete_simulation M h).1 =
          (List.range n).map (fun k => SimulationState.from_simulator
            (progressIterate M (k + 1) sim)) ∧
        (∀ k, k < n →
          (progressIterate M (k + 1) sim).t < sim.t_hard_limit) ∧
        sim.t_hard_limit ≤ (progressIterate M (n + 1) sim).t := by
  intro mu
  induction mu using Nat.strong_induction_on with
  | _ mu ih =>
    intro sim h hmu
    rw [run_complete_unfold]
    by_cases hstop : (sim.progressSim M).t_hard_limit ≤ (sim.progressSim M).t
    · refine ⟨0, ?_, ?_, ?_⟩
      · rw [if_pos hstop]
        simp
      · intro k hk
        omega
      · simpa using hstop
    · have hlt : sim.t + sim.ts < sim.t_hard_limit := by
        have := lt_of_not_le hstop
        simpa using this
      have hdec := run_measure_decreases sim h hlt
      obtain ⟨n1, hstates, hbelow, habove⟩ :=
        ih ((⌈(sim.t_hard_limit - (sim.t + sim.ts)) / sim.ts⌉).toNat)
          (by omega) (sim.progressSim M) h (by simp)
      refine ⟨n1 + 1, ?_, ?_, ?_⟩
      · rw [if_neg hstop]
        show SimulationState.from_simulator (sim.progressSim M) :: _ = _
        rw [hstates, List.range_succ_eq_map, List.map_cons, List.map_map]
        rfl
      · intro k hk
        cases k with
        | zero =>
          have := lt_of_not_le hstop
          simpa using this
        | succ k =>
          have hb := hbelow k (by omega)
          simpa using hb
      · simpa using habove

/-- Claim C9: for every positive timestep, `run_complete_simulation` on a
fresh simulator terminates and returns, in strictly increasing time order,
exactly the per-step snapshots whose timestamps are strictly below the
30-time-unit hard limit; the snapshot of the first step whose clock is at or
past the limit is excluded. -/
theorem C9_run_to_completion (M : MathModel) (balls : List Ball)
    (conf : WorldConf) (ts : ℚ) (hts : 0 < ts) :
    ∃ n : ℕ,
      ((Simulator.new balls conf ts).run_complete_simulation M hts).1 =
        (List.range n).map (fun k => SimulationState.from_simulator
          (progressIterate M (k + 1) (Simulator.new balls conf ts))) ∧
      (∀ k, k < n →
        (progressIterate M (k + 1) (Simulator.new balls conf ts)).t < 30) ∧
      30 ≤ (progressIterate M (n + 1) (Simulator.new balls conf ts)).t ∧
      List.Chain' (fun a b => a.t < b.t)
        ((Simulator.new balls conf ts).run_complete_simulation M hts).1 := by
  obtain ⟨n, hstates, hbelow, habove⟩ :=
    run_complete_spec M _ (Simulator.new balls conf ts) hts rfl
  refine ⟨n, hstates, hbelow, habove, ?_⟩
  rw [hstates]
  rw [List.chain'_map]
  cases n with
  | zero => simp
  | succ m =>
    rw [List.chain'_range_succ]
    intro i hi
    show (progressIterate M (i + 1) (Simulator.new balls conf ts)).t <
      (progressIterate M (i + 1 + 1) (Simulator.new balls conf ts)).t
    rw [progressIterate_t, progressIterate_t]
    have : ((i : ℚ) + 1) * ts < ((i : ℚ) + 1 + 1) * ts := by
      have := mul_lt_mul_of_pos_right
        (show ((i : ℚ) + 1) < (i : ℚ) + 1 + 1 by linarith) hts
      exact this
    push_cast
    show (Simulator.new balls conf ts).t + _ < (Simulator.new balls conf ts).t + _
    have ht0 : (Simulator.new balls conf ts).t = 0 := rfl
    have hts0 : (Simulator.new balls conf ts).ts = ts := rfl
    rw [ht0, hts0]
    linarith

/-- Witness for C9 on the concrete one-ball simulator with timestep 10:
snapshots at clocks 10 and 20 are kept, the step reaching 30 is dropped. -/
theorem C9_run_to_completion_witness :
    ∃ n : ℕ,
      ((Simulator.new simW.balls simW.world_conf 10).run_complete_simulation
        Mw (by norm_num [Simulator.new])).1 =
        (List.range n).map (fun k => SimulationState.from_simulator
          (progressIterate Mw (k + 1)
            (Simulator.new simW.balls simW.world_conf 10))) ∧
      (∀ k, k < n →
        (progressIterate Mw (k + 1)
          (Simulator.new simW.balls simW.world_conf 10)).t < 30) ∧
      30 ≤ (progressIterate Mw (n + 1)
        (Simulator.new simW.balls simW.world_conf 10)).t ∧
      List.Chain' (fun a b => a.t < b.t)
        ((Simulator.new simW.balls simW.world_conf 10).run_complete_simulation
          Mw (by norm_num [Simulator.new])).1 :=
  C9_run_to_completion Mw simW.balls simW.world_conf 10 (by norm_num)

end ClaimC9

end JustShoot
